import Mathlib

/-!
# Iterative linear-system solvers of `10_linear_systems_iterative.ipynb`

Shallow embedding of the notebook's code over exact rational arithmetic.

* A numpy length-`N` vector is a total map `Nat → ℚ`; only entries at
  indices `< N` are ever read by the embedded code.  Likewise an `N × N`
  matrix is `Nat → Nat → ℚ`.
* `numpy.linalg.norm(v, 2)` is `√(Σ v i ^ 2)`; every comparison of such a
  norm with a bound is stated on the squared norm (`√S > eps ↔ eps < 0 ∨
  eps² < S`, and `√S ≤ eps ↔ 0 ≤ eps ∧ S ≤ eps²`, both valid since `S ≥ 0`),
  which keeps every definition executable over `ℚ`.
* The float literal `1e-10` is modelled as the rational `1/10^10`; for the
  assembled `n = 33` problem the grid, matrix and right-hand side are exactly
  representable, so the `ℚ` values of the assembly coincide with the float64
  values the notebook computes.
* Python's `linalg.solve(P, r)` (an external LAPACK call) is modelled by an
  explicit solver parameter `lsolve`.
-/

namespace IterNB

/-- numpy 1-d array: total map from index to entry. -/
abbrev Vec := Nat → ℚ

/-- numpy 2-d array: total map from a pair of indices to an entry. -/
abbrev Mat := Nat → Nat → ℚ

/-- `numpy.dot(u[lo:hi], v[lo:hi])`. -/
def dotIco (u v : Vec) (lo hi : Nat) : ℚ := ∑ j ∈ Finset.Ico lo hi, u j * v j

/-- `numpy.dot(A, x)` for an `N × N` matrix `A`. -/
def matVec (N : Nat) (A : Mat) (x : Vec) : Vec :=
  fun i => ∑ j ∈ Finset.range N, A i j * x j

/-- entrywise difference of vectors, `u - v`. -/
def vsub (u v : Vec) : Vec := fun i => u i - v i

/-- squared Euclidean norm of a length-`N` vector: `numpy.linalg.norm(v,2)^2`. -/
def normSq (N : Nat) (v : Vec) : ℚ := ∑ i ∈ Finset.range N, v i ^ 2

/-- squared norm of the residual `b - A·x` of the `N`-dimensional system. -/
def resNormSq (N : Nat) (A : Mat) (b : Vec) (x : Vec) : ℚ :=
  normSq N (vsub b (matVec N A x))

/-- `√S > eps`, stated on the squared norm `S ≥ 0`. -/
def sqNormGt (S eps : ℚ) : Bool := decide (eps < 0 ∨ eps ^ 2 < S)

/-- `√S ≤ eps`, stated on the squared norm `S ≥ 0`. -/
def sqNormLe (S eps : ℚ) : Prop := 0 ≤ eps ∧ S ≤ eps ^ 2

instance (S eps : ℚ) : Decidable (sqNormLe S eps) :=
  inferInstanceAs (Decidable (0 ≤ eps ∧ S ≤ eps ^ 2))

/-- The in-loop tolerance variable: `none` is the sentinel `tol = eps + 1`
set before each solver's loop (in exact arithmetic `eps + 1 > eps` always
holds, so the sentinel always passes the `tol > eps` test); `some S` holds
the squared norm the loop last computed. -/
def tolGt (eps : ℚ) : Option ℚ → Bool
  | none => true
  | some S => sqNormGt S eps

/-- `numpy.zeros_like(b)` for a length-`N` array. -/
def zeroVec : Vec := fun _ => 0

/-- `numpy.ones_like(b)` for a length-`N` array. -/
def ones : Vec := fun _ => 1

/-- `numpy.identity(n)`. -/
def identityMat : Mat := fun i j => if i = j then 1 else 0

/-- What a solver run leaves behind: the iterate `x` the function returns and
the iteration count `it` and (squared) tolerance `tol` it prints. -/
structure SolveResult where
  x : Vec
  it : Nat
  tolSq : Option ℚ

/-! ## `jacobi` (cell 8)

```
def jacobi(A,b,nmax=10000,eps=1e-10):
    N=len(A)
    x=zeros_like(b)
    x_old=ones_like(b)
    tol=eps+1
    it=0
    while(it<nmax and tol>eps):
        it+=1
        for i in range(N):
            x[i]=1./A[i,i]*(b[i]-dot(A[i,0:i],x_old[0:i]) - dot(A[i,i+1:N],x_old[i+1:N]))
    res= b-dot(A,x)
    tol=numpy.linalg.norm(res,2)
    x_old =x.copy()
    print it, tol
    return x
```

Note the indentation: the recomputation of `res`/`tol` and the copy
`x_old = x.copy()` sit OUTSIDE the while loop, at function-body level, so
inside the loop `tol` keeps the sentinel value `eps + 1` and `x_old` keeps
its initial all-ones value. -/

/-- One pass of jacobi's inner `for i in range(N)` loop.  The assignment to
`x[i]` reads only `x_old`, so the pass is a pointwise map of `x_old`; entries
at `i ≥ N` keep the previous iterate's value `x i`. -/
def jacobiSweep (N : Nat) (A : Mat) (b : Vec) (xold x : Vec) : Vec := fun i =>
  if i < N then
    1 / A i i * (b i - dotIco (A i) xold 0 i - dotIco (A i) xold (i + 1) N)
  else x i

/-- jacobi's loop state: the iterate `x`, the vector `x_old` and the counter. -/
structure JState where
  x : Vec
  xold : Vec
  it : Nat

/-- jacobi's `while(it<nmax and tol>eps)` loop, by fuel (`nmax` fuel is enough
since `it` grows by 1 per pass and the guard needs `it < nmax`).  Inside this
loop `tol` is never reassigned, so the guard's second conjunct is literally
`eps + 1 > eps`. -/
def jacobiLoop (N : Nat) (A : Mat) (b : Vec) (nmax : Nat) (eps : ℚ) :
    Nat → JState → JState
  | 0, s => s
  | fuel + 1, s =>
    if s.it < nmax ∧ eps < eps + 1 then
      jacobiLoop N A b nmax eps fuel ⟨jacobiSweep N A b s.xold s.x, s.xold, s.it + 1⟩
    else s

/-- `jacobi(A, b, nmax, eps)` (defaults in the source: `nmax=10000`,
`eps=1e-10`); `N = len(A)` is the explicit dimension parameter.  The returned
`tolSq` is the squared residual norm computed after the loop. -/
def jacobi (N : Nat) (A : Mat) (b : Vec) (nmax : Nat) (eps : ℚ) : SolveResult :=
  let s := jacobiLoop N A b nmax eps nmax ⟨zeroVec, ones, 0⟩
  ⟨s.x, s.it, some (resNormSq N A b s.x)⟩

/-! ## `gauss_seidel` (cell 10)

```
def gauss_seidel(A,b,nmax=10000,eps=1e-10):
    N=len(A)
    x=zeros_like(b)
    x_old=ones_like(b)
    tol=eps+1
    it=0
    while(it<nmax and tol>eps):
        it+=1
        for i in range(N):
            x[i]=1./A[i,i]*(b[i]-dot(A[i,0:i],x[0:i]) - dot(A[i,i+1:N],x_old[i+1:N]))
        res= b-dot(A,x)
        tol=numpy.linalg.norm(res,2)
        x_old =x.copy()
    print it, tol
    return x
```

Here the residual, tolerance and `x_old` updates are INSIDE the loop. -/

/-- The body of gauss_seidel's inner loop at index `i`: overwrite `x[i]`
using the already-updated entries `x[0:i]` and the previous sweep's
`x_old[i+1:N]`. -/
def gsUpdate (N : Nat) (A : Mat) (b : Vec) (xold : Vec) (x : Vec) (i : Nat) : Vec :=
  Function.update x i
    (1 / A i i * (b i - dotIco (A i) x 0 i - dotIco (A i) xold (i + 1) N))

/-- `for i in range(k)` of gauss_seidel, mutating the iterate in place. -/
def gsPass (N : Nat) (A : Mat) (b : Vec) (xold : Vec) : Nat → Vec → Vec
  | 0, x => x
  | k + 1, x => gsUpdate N A b xold (gsPass N A b xold k x) k

/-- One full gauss_seidel sweep, `for i in range(N)`. -/
def gsSweep (N : Nat) (A : Mat) (b : Vec) (x xold : Vec) : Vec :=
  gsPass N A b xold N x

/-- gauss_seidel's loop state. -/
structure GSState where
  x : Vec
  xold : Vec
  tolSq : Option ℚ
  it : Nat

/-- gauss_seidel's while loop, by fuel. -/
def gsLoop (N : Nat) (A : Mat) (b : Vec) (nmax : Nat) (eps : ℚ) :
    Nat → GSState → GSState
  | 0, s => s
  | fuel + 1, s =>
    if s.it < nmax ∧ tolGt eps s.tolSq = true then
      let x' := gsSweep N A b s.x s.xold
      gsLoop N A b nmax eps fuel ⟨x', x', some (resNormSq N A b x'), s.it + 1⟩
    else s

/-- `gauss_seidel(A, b, nmax, eps)` (defaults in the source: `nmax=10000`,
`eps=1e-10`). -/
def gauss_seidel (N : Nat) (A : Mat) (b : Vec) (nmax : Nat) (eps : ℚ) : SolveResult :=
  let s := gsLoop N A b nmax eps nmax ⟨zeroVec, ones, none, 0⟩
  ⟨s.x, s.it, s.tolSq⟩

/-! ## `gradient` (cell 12)

```
def gradient(A,b,P,nmax=8000,eps=1e-10):
    n=len(A)
    z=zeros_like(b)
    tol=eps+1
    r=b-dot(A,x)
    it=0
    while(it<nmax and tol>eps):
        z=linalg.solve(P,r)
        alpha=dot(r,z)/(dot(z,dot(A,z)))
        x+=z*alpha
        r-=dot(A,z)*alpha
        tol=numpy.linalg.norm(r,2)
        it+=1
    print it, tol
```

Python scoping: `x` is assigned inside the body (by the augmented assignment
`x += z*alpha`), which makes `x` a local variable of `gradient` everywhere in
the body — the module-level `x` of cell 2 is shadowed.  The read of `x` in
`r = b - dot(A,x)` therefore happens before any assignment to the local `x`
and raises `UnboundLocalError` on every call, before the first iteration.
The unassigned local is modelled as `none : Option Vec`; the loop body that
the error makes unreachable is still embedded faithfully below. -/

/-- The one runtime error the embedded code can raise. -/
inductive PyError
  | unboundLocal

/-- gradient's while loop: state is `(x, r, tolSq, it)`. -/
def gradLoop (N : Nat) (A P : Mat) (lsolve : Mat → Vec → Vec) (nmax : Nat) (eps : ℚ) :
    Nat → Vec → Vec → Option ℚ → Nat → Vec × Nat × Option ℚ
  | 0, x, _, tolSq, it => (x, it, tolSq)
  | fuel + 1, x, r, tolSq, it =>
    if it < nmax ∧ tolGt eps tolSq = true then
      let z := lsolve P r
      let alpha := dotIco r z 0 N / dotIco z (matVec N A z) 0 N
      let x' := fun i => x i + z i * alpha
      let r' := fun i => r i - matVec N A z i * alpha
      gradLoop N A P lsolve nmax eps fuel x' r' (some (normSq N r')) (it + 1)
    else (x, it, tolSq)

/-- `gradient(A, b, P, nmax, eps)` (defaults in the source: `nmax=8000`,
`eps=1e-10`); `lsolve` models the external `linalg.solve`.  The source
function returns `None` after printing `it, tol`; the `ok` payload carries
the final `(x, it, tolSq)` the loop would leave behind — it is unreachable,
because the local `x` is read before it is ever assigned. -/
def gradient (N : Nat) (A : Mat) (b : Vec) (P : Mat) (lsolve : Mat → Vec → Vec)
    (nmax : Nat) (eps : ℚ) : Except PyError (Vec × Nat × Option ℚ) :=
  let xLocal : Option Vec := none
  match xLocal with
  | none => Except.error PyError.unboundLocal
  | some x =>
    let r := vsub b (matVec N A x)
    Except.ok (gradLoop N A P lsolve nmax eps nmax x r none 0)

/-! ## Assembly of the `n = 33` system (cells 2, 4 and 6)

```
n = 33
h = 1./(n-1)
x=linspace(0,1,n)

a = -ones((n-1,))
b = 2*ones((n,))
A = (diag(a, -1) + diag(b, 0) + diag(a, +1))
A /= h**2

f =x*(1.-x)
A[0,:] = 0
A[:,0] = 0
A[0,0] = 1.
A[:,-1] = 0
A[-1,:] = 0
A[-1,-1] = 1
f[0] = 0
f[-1] = 0
```
-/

/-- `n = 33`. -/
def nPts : Nat := 33

/-- `h = 1./(n-1)`. -/
def hOf (n : Nat) : ℚ := 1 / ((n : ℚ) - 1)

/-- `linspace(0,1,n)`: the grid point `x_i = i/(n-1)`. -/
def linspace01 (n : Nat) : Vec := fun i => (i : ℚ) / ((n : ℚ) - 1)

/-- `diag(a,-1) + diag(b,0) + diag(a,+1)` with `a = -ones(n-1)` and
`b = 2*ones(n)`: within the index range the three summands place `-1` on the
subdiagonal, `2` on the diagonal and `-1` on the superdiagonal. -/
def tridiag (i j : Nat) : ℚ :=
  (if j + 1 = i then -1 else 0) + (if i = j then 2 else 0) + (if i + 1 = j then -1 else 0)

/-- `A /= h**2`. -/
def Ascaled (n : Nat) : Mat := fun i j => tridiag i j / hOf n ^ 2

/-- `A[r,:] = c`. -/
def setRow (A : Mat) (r : Nat) (c : ℚ) : Mat := fun i j => if i = r then c else A i j

/-- `A[:,r] = c`. -/
def setCol (A : Mat) (r : Nat) (c : ℚ) : Mat := fun i j => if j = r then c else A i j

/-- `A[r,s] = c`. -/
def setEntry (A : Mat) (r s : Nat) (c : ℚ) : Mat :=
  fun i j => if i = r ∧ j = s then c else A i j

/-- Cell-6 boundary conditions in source order:
`A[0,:]=0; A[:,0]=0; A[0,0]=1; A[:,-1]=0; A[-1,:]=0; A[-1,-1]=1`
(numpy index `-1` is `n-1`). -/
def applyBC (n : Nat) (A : Mat) : Mat :=
  setEntry
    (setRow (setCol (setEntry (setCol (setRow A 0 0) 0 0) 0 0 1) (n - 1) 0) (n - 1) 0)
    (n - 1) (n - 1) 1

/-- The assembled, boundary-modified matrix for `n` grid points. -/
def Amat (n : Nat) : Mat := applyBC n (Ascaled n)

/-- `v[k] = c`. -/
def setVecEntry (v : Vec) (k : Nat) (c : ℚ) : Vec := fun i => if i = k then c else v i

/-- `f = x*(1.-x)` then `f[0] = 0; f[-1] = 0`. -/
def fVec (n : Nat) : Vec :=
  setVecEntry (setVecEntry (fun i => linspace01 n i * (1 - linspace01 n i)) 0 0) (n - 1) 0

/-- The notebook's `A` after cell 6: `Amat 33`. -/
def A33 : Mat := Amat nPts

/-- The notebook's `f` after cell 6: `fVec 33`. -/
def f33 : Vec := fVec nPts

/-! Small systems used to evaluate the code at concrete inputs. -/

/-- 1×1 test system matrix `[[2]]`. -/
def Aone : Mat := fun _ _ => 2

/-- 1×1 test right-hand side `[4]`. -/
def bFour : Vec := fun _ => 4

/-- 2×2 test system matrix `[[2,1],[1,2]]`. -/
def Atwo : Mat := fun i j =>
  if i = j then 2 else if (i = 0 ∧ j = 1) ∨ (i = 1 ∧ j = 0) then 1 else 0

/-- 2×2 test right-hand side `[3,5]`. -/
def bThreeFive : Vec := fun i => if i = 0 then 3 else 5

/-- The pair `(x, x_old)` gauss_seidel's loop holds after `k` completed
sweeps: both start as `(zeros, ones)` and after each sweep `x_old` becomes a
copy of the new `x`. -/
def gsIter (N : Nat) (A : Mat) (b : Vec) : Nat → Vec × Vec
  | 0 => (zeroVec, ones)
  | k + 1 =>
    let x' := gsSweep N A b (gsIter N A b k).1 (gsIter N A b k).2
    (x', x')

/-- gauss_seidel's full loop state after `k` completed sweeps (`k = 0` is the
state on entry, with the sentinel tolerance). -/
def gsStateAt (N : Nat) (A : Mat) (b : Vec) (k : Nat) : GSState :=
  ⟨(gsIter N A b k).1, (gsIter N A b k).2,
    if k = 0 then none else some (resNormSq N A b (gsIter N A b k).1), k⟩

/-! ## Lemmas -/

lemma sqNormGt_eq_false_iff (S eps : ℚ) : sqNormGt S eps = false ↔ sqNormLe S eps := by
  unfold sqNormGt sqNormLe
  rw [decide_eq_false_iff_not, not_or, not_lt, not_lt]

lemma sqNormGt_eq_true_iff (S eps : ℚ) : sqNormGt S eps = true ↔ ¬ sqNormLe S eps := by
  rw [← sqNormGt_eq_false_iff]
  cases h : sqNormGt S eps <;> simp

/-- Inside jacobi's loop nothing ever writes `x_old`. -/
lemma jacobiLoop_xold (N : Nat) (A : Mat) (b : Vec) (nmax : Nat) (eps : ℚ) :
    ∀ fuel s, (jacobiLoop N A b nmax eps fuel s).xold = s.xold := by
  intro fuel
  induction fuel with
  | zero => intro s; rfl
  | succ f ih =>
    intro s
    rw [jacobiLoop]
    split
    · rw [ih]
    · rfl

/-- Inside jacobi's loop the guard's tolerance test is the sentinel
`eps + 1 > eps`, which always holds, so the loop runs down all its fuel. -/
lemma jacobiLoop_it (N : Nat) (A : Mat) (b : Vec) (nmax : Nat) (eps : ℚ) :
    ∀ fuel s, s.it + fuel ≤ nmax → (jacobiLoop N A b nmax eps fuel s).it = s.it + fuel := by
  intro fuel
  induction fuel with
  | zero => intro s _; rfl
  | succ f ih =>
    intro s hs
    rw [jacobiLoop, if_pos ⟨by omega, lt_add_one eps⟩]
    have h2 := ih ⟨jacobiSweep N A b s.xold s.x, s.xold, s.it + 1⟩
      (show s.it + 1 + f ≤ nmax by omega)
    rw [h2]
    show s.it + 1 + f = s.it + (f + 1)
    omega

/-- A jacobi pass depends only on `x_old` at indices `< N` and repeats the
previous iterate elsewhere, so passing twice from the same `x_old` changes
nothing the second time. -/
lemma jacobiSweep_stable (N : Nat) (A : Mat) (b : Vec) (w x : Vec) :
    jacobiSweep N A b w (jacobiSweep N A b w x) = jacobiSweep N A b w x := by
  funext i
  unfold jacobiSweep
  split <;> rfl

/-- If the iterate is already the sweep of the (never-changing) `x_old`,
jacobi's loop returns it unchanged. -/
lemma jacobiLoop_x_fixed (N : Nat) (A : Mat) (b : Vec) (nmax : Nat) (eps : ℚ) :
    ∀ fuel s, jacobiSweep N A b s.xold s.x = s.x →
      (jacobiLoop N A b nmax eps fuel s).x = s.x := by
  intro fuel
  induction fuel with
  | zero => intro s _; rfl
  | succ f ih =>
    intro s hs
    rw [jacobiLoop]
    split
    · rw [hs]
      exact ih ⟨s.x, s.xold, s.it + 1⟩ hs
    · rfl

/-- jacobi performs exactly `nmax` iterations whatever the data: the
tolerance it tests is never updated inside the loop. -/
lemma jacobi_it (N : Nat) (A : Mat) (b : Vec) (nmax : Nat) (eps : ℚ) :
    (jacobi N A b nmax eps).it = nmax := by
  show (jacobiLoop N A b nmax eps nmax ⟨zeroVec, ones, 0⟩).it = nmax
  rw [jacobiLoop_it N A b nmax eps nmax ⟨zeroVec, ones, 0⟩ (show 0 + nmax ≤ nmax by omega)]
  show 0 + nmax = nmax
  omega

/-- The vector jacobi returns is one sweep applied to the all-ones vector,
for every `nmax ≥ 1`. -/
lemma jacobi_x (N : Nat) (A : Mat) (b : Vec) (nmax : Nat) (eps : ℚ) (h : 1 ≤ nmax) :
    (jacobi N A b nmax eps).x = jacobiSweep N A b ones zeroVec := by
  show (jacobiLoop N A b nmax eps nmax ⟨zeroVec, ones, 0⟩).x = jacobiSweep N A b ones zeroVec
  obtain ⟨f, rfl⟩ : ∃ f, nmax = f + 1 := ⟨nmax - 1, by omega⟩
  rw [jacobiLoop, if_pos ⟨show 0 < f + 1 by omega, lt_add_one eps⟩]
  exact jacobiLoop_x_fixed N A b (f + 1) eps f
    ⟨jacobiSweep N A b ones zeroVec, ones, 1⟩ (jacobiSweep_stable N A b ones zeroVec)

/-- Entries at indices the pass has not reached yet still hold the incoming
iterate. -/
lemma gsPass_ge (N : Nat) (A : Mat) (b : Vec) (xold : Vec) :
    ∀ k x j, k ≤ j → gsPass N A b xold k x j = x j := by
  intro k
  induction k with
  | zero => intro x j _; rfl
  | succ m ih =>
    intro x j hj
    show gsUpdate N A b xold (gsPass N A b xold m x) m j = x j
    unfold gsUpdate
    rw [Function.update_noteq (by omega)]
    exact ih x j (by omega)

/-- Once the pass has written index `j`, later steps leave that entry alone. -/
lemma gsPass_lt (N : Nat) (A : Mat) (b : Vec) (xold : Vec) :
    ∀ m j x, j < m → gsPass N A b xold m x j = gsPass N A b xold (j + 1) x j := by
  intro m
  induction m with
  | zero => intro j x hj; omega
  | succ k ih =>
    intro j x hj
    rcases Nat.lt_succ_iff_lt_or_eq.mp hj with h | h
    · show gsUpdate N A b xold (gsPass N A b xold k x) k j = _
      unfold gsUpdate
      rw [Function.update_noteq (by omega)]
      exact ih j x h
    · subst h; rfl

/-- The gauss_seidel update formula, read off the finished sweep: entry `i`
is `b i` minus the dot products with the sweep's own entries below `i` and
the previous iterate's entries above `i`, divided by `A i i`. -/
lemma gsSweep_apply (N : Nat) (A : Mat) (b : Vec) (x xold : Vec) (i : Nat) (hi : i < N) :
    gsSweep N A b x xold i =
      1 / A i i *
        (b i - dotIco (A i) (gsSweep N A b x xold) 0 i - dotIco (A i) xold (i + 1) N) := by
  unfold gsSweep
  rw [gsPass_lt N A b xold N i x hi]
  show gsUpdate N A b xold (gsPass N A b xold i x) i i = _
  unfold gsUpdate
  rw [Function.update_same]
  have hdot : dotIco (A i) (gsPass N A b xold i x) 0 i
      = dotIco (A i) (gsPass N A b xold N x) 0 i := by
    unfold dotIco
    refine Finset.sum_congr rfl ?_
    intro j hj
    have hj' : j < i := (Finset.mem_Ico.mp hj).2
    rw [gsPass_lt N A b xold i j x hj', gsPass_lt N A b xold N j x (by omega)]
  rw [hdot]

/-- Behaviour of gauss_seidel's loop started at the state after `k` sweeps:
it lands on the state after some `m ≥ k` sweeps, having either spent the cap
or met the tolerance, and the tolerance test failed at every sweep it passed
through. -/
lemma gsLoop_from (N : Nat) (A : Mat) (b : Vec) (nmax : Nat) (eps : ℚ) :
    ∀ fuel k, k + fuel = nmax →
      ∃ m, k ≤ m ∧ m ≤ nmax ∧
        gsLoop N A b nmax eps fuel (gsStateAt N A b k) = gsStateAt N A b m ∧
        (m = nmax ∨ (1 ≤ m ∧ sqNormLe (resNormSq N A b (gsIter N A b m).1) eps)) ∧
        (∀ j, k ≤ j → j < m → tolGt eps (gsStateAt N A b j).tolSq = true) := by
  intro fuel
  induction fuel with
  | zero =>
    intro k hk
    exact ⟨k, le_refl k, by omega, rfl, Or.inl (by omega), fun j h1 h2 => by omega⟩
  | succ f ih =>
    intro k hk
    by_cases hcond : tolGt eps (gsStateAt N A b k).tolSq = true
    · have hstep : gsLoop N A b nmax eps (f + 1) (gsStateAt N A b k)
          = gsLoop N A b nmax eps f (gsStateAt N A b (k + 1)) := by
        rw [gsLoop, if_pos ⟨show k < nmax by omega, hcond⟩]
        rfl
      obtain ⟨m, hkm, hmn, heq, hstop, hall⟩ := ih (k + 1) (by omega)
      refine ⟨m, by omega, hmn, by rw [hstep, heq], hstop, ?_⟩
      intro j h1 h2
      rcases Nat.eq_or_lt_of_le h1 with h | h
      · rw [← h]; exact hcond
      · exact hall j (by omega) h2
    · refine ⟨k, le_refl k, by omega, ?_, ?_, fun j h1 h2 => by omega⟩
      · rw [gsLoop, if_neg]
        intro hand
        exact hcond hand.2
      · right
        rcases Nat.eq_zero_or_pos k with h0 | h0
        · exfalso
          apply hcond
          subst h0
          rfl
        · refine ⟨h0, ?_⟩
          rw [← sqNormGt_eq_false_iff]
          have : tolGt eps (gsStateAt N A b k).tolSq = sqNormGt (resNormSq N A b (gsIter N A b k).1) eps := by
            show tolGt eps (if k = 0 then none else some (resNormSq N A b (gsIter N A b k).1)) = _
            rw [if_neg (by omega)]
            rfl
          rw [← this]
          exact Bool.not_eq_true _ |>.mp hcond

/-- What a gauss_seidel run produces: the iterate after `m` sweeps for some
`m ≤ nmax`, where either the cap was spent or the tolerance was met at sweep
`m`, and the tolerance test failed at every earlier completed sweep. -/
lemma gauss_seidel_run (N : Nat) (A : Mat) (b : Vec) (nmax : Nat) (eps : ℚ) :
    ∃ m, m ≤ nmax ∧
      (gauss_seidel N A b nmax eps).x = (gsIter N A b m).1 ∧
      (gauss_seidel N A b nmax eps).it = m ∧
      (m = nmax ∨ (1 ≤ m ∧ sqNormLe (resNormSq N A b (gsIter N A b m).1) eps)) ∧
      (∀ j, 1 ≤ j → j < m → ¬ sqNormLe (resNormSq N A b (gsIter N A b j).1) eps) := by
  obtain ⟨m, _, hmn, heq, hstop, hall⟩ := gsLoop_from N A b nmax eps nmax 0 (by omega)
  have hx : (gauss_seidel N A b nmax eps).x = (gsStateAt N A b m).x := by
    show (gsLoop N A b nmax eps nmax (gsStateAt N A b 0)).x = _
    rw [heq]
  have hit : (gauss_seidel N A b nmax eps).it = (gsStateAt N A b m).it := by
    show (gsLoop N A b nmax eps nmax (gsStateAt N A b 0)).it = _
    rw [heq]
  refine ⟨m, hmn, hx, hit, hstop, ?_⟩
  intro j h1 h2
  have := hall j (by omega) h2
  rw [← sqNormGt_eq_true_iff]
  have hts : (gsStateAt N A b j).tolSq = some (resNormSq N A b (gsIter N A b j).1) := by
    show (if j = 0 then none else some (resNormSq N A b (gsIter N A b j).1)) = _
    rw [if_neg (by omega)]
  rw [hts] at this
  exact this

/-- A row `r` of the system whose off-diagonal entries and right-hand side
vanish forces the jacobi pass to write `0` at `r`, whatever the iterates. -/
lemma jacobiSweep_row_zero (N : Nat) (A : Mat) (b : Vec) (r : Nat)
    (hb : b r = 0) (hA : ∀ j, j ≠ r → A r j = 0) (hr : r < N) (xold x : Vec) :
    jacobiSweep N A b xold x r = 0 := by
  unfold jacobiSweep
  rw [if_pos hr]
  have h1 : dotIco (A r) xold 0 r = 0 := by
    refine Finset.sum_eq_zero ?_
    intro j hj
    rw [hA j (by have := (Finset.mem_Ico.mp hj).2; omega), zero_mul]
  have h2 : dotIco (A r) xold (r + 1) N = 0 := by
    refine Finset.sum_eq_zero ?_
    intro j hj
    rw [hA j (by have := (Finset.mem_Ico.mp hj).1; omega), zero_mul]
  rw [h1, h2, hb]
  ring

/-- The same for the gauss_seidel sweep. -/
lemma gsSweep_row_zero (N : Nat) (A : Mat) (b : Vec) (r : Nat)
    (hb : b r = 0) (hA : ∀ j, j ≠ r → A r j = 0) (hr : r < N) (x xold : Vec) :
    gsSweep N A b x xold r = 0 := by
  rw [gsSweep_apply N A b x xold r hr]
  have h1 : dotIco (A r) (gsSweep N A b x xold) 0 r = 0 := by
    refine Finset.sum_eq_zero ?_
    intro j hj
    rw [hA j (by have := (Finset.mem_Ico.mp hj).2; omega), zero_mul]
  have h2 : dotIco (A r) xold (r + 1) N = 0 := by
    refine Finset.sum_eq_zero ?_
    intro j hj
    rw [hA j (by have := (Finset.mem_Ico.mp hj).1; omega), zero_mul]
  rw [h1, h2, hb]
  ring

/-- jacobi's loop keeps `x r = 0` for such a row. -/
lemma jacobiLoop_row_zero (N : Nat) (A : Mat) (b : Vec) (nmax : Nat) (eps : ℚ) (r : Nat)
    (hb : b r = 0) (hA : ∀ j, j ≠ r → A r j = 0) (hr : r < N) :
    ∀ fuel s, s.x r = 0 → (jacobiLoop N A b nmax eps fuel s).x r = 0 := by
  intro fuel
  induction fuel with
  | zero => intro s hs; exact hs
  | succ f ih =>
    intro s hs
    rw [jacobiLoop]
    split
    · exact ih ⟨jacobiSweep N A b s.xold s.x, s.xold, s.it + 1⟩
        (jacobiSweep_row_zero N A b r hb hA hr s.xold s.x)
    · exact hs

/-- gauss_seidel's loop keeps `x r = 0` for such a row. -/
lemma gsLoop_row_zero (N : Nat) (A : Mat) (b : Vec) (nmax : Nat) (eps : ℚ) (r : Nat)
    (hb : b r = 0) (hA : ∀ j, j ≠ r → A r j = 0) (hr : r < N) :
    ∀ fuel s, s.x r = 0 → (gsLoop N A b nmax eps fuel s).x r = 0 := by
  intro fuel
  induction fuel with
  | zero => intro s hs; exact hs
  | succ f ih =>
    intro s hs
    rw [gsLoop]
    split
    · exact ih _ (gsSweep_row_zero N A b r hb hA hr s.x s.xold)
    · exact hs

/-! ### The assembled matrix, in closed form -/

/-- Row `0` after the boundary-condition cell: the identity row. -/
lemma Amat_row0 (n : Nat) (j : Nat) : Amat n 0 j = if j = 0 then 1 else 0 := by
  unfold Amat applyBC setEntry setRow setCol
  by_cases h1 : j = 0 <;> by_cases h2 : j = n - 1 <;> by_cases h3 : (0 : Nat) = n - 1 <;>
    simp [h1, h2, h3] <;> split_ifs <;> first | rfl | omega

/-- Column `0` after the boundary-condition cell: the identity column. -/
lemma Amat_col0 (n : Nat) (i : Nat) : Amat n i 0 = if i = 0 then 1 else 0 := by
  unfold Amat applyBC setEntry setRow setCol
  by_cases h1 : i = 0 <;> by_cases h2 : i = n - 1 <;> by_cases h3 : (0 : Nat) = n - 1 <;>
    simp [h1, h2, h3] <;> split_ifs <;> first | rfl | omega

/-- Row `n-1` after the boundary-condition cell: the identity row. -/
lemma Amat_rowLast (n : Nat) (j : Nat) : Amat n (n - 1) j = if j = n - 1 then 1 else 0 := by
  unfold Amat applyBC setEntry setRow setCol
  by_cases h1 : j = n - 1 <;> simp [h1]

/-- Column `n-1` after the boundary-condition cell: the identity column. -/
lemma Amat_colLast (n : Nat) (i : Nat) : Amat n i (n - 1) = if i = n - 1 then 1 else 0 := by
  unfold Amat applyBC setEntry setRow setCol
  by_cases h1 : i = n - 1 <;> simp [h1]

/-- Interior entries are untouched by the boundary-condition cell. -/
lemma Amat_interior (n : Nat) (i j : Nat)
    (hi0 : i ≠ 0) (hj0 : j ≠ 0) (hi1 : i ≠ n - 1) (hj1 : j ≠ n - 1) :
    Amat n i j = Ascaled n i j := by
  unfold Amat applyBC setEntry setRow setCol
  simp [hi0, hj0, hi1, hj1]

/-! ### Concrete evaluations -/

set_option maxHeartbeats 1600000

/-- Entries of an interior row of the assembled `33 × 33` matrix. -/
lemma A33_row (i : Nat) (hi0 : i ≠ 0) (hil : i ≠ 32) (j : Nat) :
    A33 i j = if j = 0 then 0 else if j = 32 then 0 else
      if j + 1 = i then -1024 else if i = j then 2048 else if i + 1 = j then -1024 else 0 := by
  show Amat nPts i j = _
  by_cases hj0 : j = 0
  · subst hj0; rw [Amat_col0, if_neg hi0]; norm_num
  · by_cases hjl : j = 32
    · subst hjl
      have h32 : (32 : Nat) = nPts - 1 := by norm_num [nPts]
      rw [h32, Amat_colLast, if_neg]
      · norm_num
      · simp [nPts]; omega
    · rw [Amat_interior nPts i j hi0 hj0 (by simp [nPts]; omega) (by simp [nPts]; omega)]
      simp only [Ascaled, tridiag, hOf, nPts]
      split_ifs <;> norm_num <;> omega

/-- Entry 1 of the jacobi pass applied to the all-ones vector. -/
lemma x1_eval : jacobiSweep 33 A33 f33 ones zeroVec 1 = 1048607 / 2097152 := by
  simp only [jacobiSweep, dotIco, Finset.sum_Ico_eq_sum_range]
  norm_num [A33_row 1 (by norm_num) (by norm_num), f33, fVec, setVecEntry, linspace01, nPts,
    ones, Finset.sum_range_succ]

/-- Entry 2 of the jacobi pass applied to the all-ones vector. -/
lemma x2_eval : jacobiSweep 33 A33 f33 ones zeroVec 2 = 524303 / 524288 := by
  simp only [jacobiSweep, dotIco, Finset.sum_Ico_eq_sum_range]
  norm_num [A33_row 2 (by norm_num) (by norm_num), f33, fVec, setVecEntry, linspace01, nPts,
    ones, Finset.sum_range_succ]

/-- Entry 3 of the jacobi pass applied to the all-ones vector. -/
lemma x3_eval : jacobiSweep 33 A33 f33 ones zeroVec 3 = 2097239 / 2097152 := by
  simp only [jacobiSweep, dotIco, Finset.sum_Ico_eq_sum_range]
  norm_num [A33_row 3 (by norm_num) (by norm_num), f33, fVec, setVecEntry, linspace01, nPts,
    ones, Finset.sum_range_succ]

/-- Entry 2 of the residual of the vector jacobi returns on the assembled
system: about `-512`, very far from the `1e-10` tolerance. -/
lemma v2_eval :
    vsub f33 (matVec 33 A33 (jacobiSweep 33 A33 f33 ones zeroVec)) 2 = -(524229 / 1024) := by
  simp only [vsub, matVec]
  norm_num [A33_row 2 (by norm_num) (by norm_num), Finset.sum_range_succ, x1_eval, x2_eval, x3_eval]
  norm_num [f33, fVec, setVecEntry, linspace01, nPts]

/-- One residual entry already bounds the squared residual norm below. -/
lemma v2sq_le_S :
    ((524229 : ℚ) / 1024) ^ 2 ≤ resNormSq 33 A33 f33 (jacobiSweep 33 A33 f33 ones zeroVec) := by
  unfold resNormSq normSq
  refine le_trans (le_of_eq ?_)
    (Finset.single_le_sum (fun i _ => sq_nonneg _) (Finset.mem_range.mpr (show 2 < 33 by omega)))
  show ((524229 : ℚ) / 1024) ^ 2
      = (vsub f33 (matVec 33 A33 (jacobiSweep 33 A33 f33 ones zeroVec)) 2) ^ 2
  rw [v2_eval]
  ring

/-- The 1×1 test system is solved exactly by a single jacobi pass. -/
lemma res_Aone : resNormSq 1 Aone bFour (jacobiSweep 1 Aone bFour ones zeroVec) = 0 := by
  norm_num [resNormSq, normSq, vsub, matVec, jacobiSweep, dotIco, Finset.sum_Ico_eq_sum_range,
    Finset.sum_range_succ, Finset.sum_range_zero, Finset.sum_range_one, Aone, bFour, ones]

/-- Row 0 of the assembled system beyond the corner vanishes. -/
lemma A33_row0_offdiag : ∀ j, j ≠ 0 → A33 0 j = 0 := by
  intro j hj
  show Amat nPts 0 j = 0
  rw [Amat_row0, if_neg hj]

/-- Row 32 of the assembled system beyond the corner vanishes. -/
lemma A33_rowLast_offdiag : ∀ j, j ≠ 32 → A33 32 j = 0 := by
  intro j hj
  show Amat nPts (nPts - 1) j = 0
  rw [Amat_rowLast, if_neg (show j ≠ nPts - 1 by simp [nPts]; omega)]

/-- The boundary entries of the assembled right-hand side vanish. -/
lemma f33_boundary : f33 0 = 0 ∧ f33 32 = 0 := by
  constructor <;> norm_num [f33, fVec, setVecEntry, nPts]

/-! ## The claims -/

/-- **C1** (code_bug evidence). The spec asks that every solver run on the
assembled `N = 33` system return an `x` with `‖b - A·x‖₂ ≤ eps` or an
iteration count equal to `nmax`; the gradient solver instead raises an
unbound-variable error on this very call (cell 12 runs
`gradient(A,f,identity(len(A)))`) and returns nothing, whatever function is
plugged in for the external `linalg.solve`. -/
theorem C1_gradient_on_assembled_system :
    ∀ lsolve : Mat → Vec → Vec,
      gradient 33 A33 f33 identityMat lsolve 8000 (1 / 10 ^ 10)
        = Except.error PyError.unboundLocal :=
  fun _ => rfl

/-- **C2** (code_bug evidence). The claim says jacobi stops as soon as the
residual norm is at most `eps` or `it = nmax`, whichever happens first.  On
`A = [[2]]`, `b = [4]`, `nmax = 5`, `eps = 1e-10` the very first pass already
has residual `0 ≤ eps` (second conjunct), yet the code performs all 5
iterations (first conjunct) — the tolerance update sits outside the loop —
and returns that first pass's iterate (third conjunct). -/
theorem C2_jacobi_ignores_tolerance :
    (jacobi 1 Aone bFour 5 (1 / 10 ^ 10)).it = 5 ∧
    sqNormLe (resNormSq 1 Aone bFour (jacobiSweep 1 Aone bFour ones zeroVec)) (1 / 10 ^ 10) ∧
    (jacobi 1 Aone bFour 5 (1 / 10 ^ 10)).x = jacobiSweep 1 Aone bFour ones zeroVec := by
  refine ⟨jacobi_it 1 Aone bFour 5 (1 / 10 ^ 10), ⟨by norm_num, ?_⟩,
    jacobi_x 1 Aone bFour 5 (1 / 10 ^ 10) (by omega)⟩
  rw [res_Aone]
  positivity

/-- **C3** (code_bug evidence). The claim says jacobi's `k`-th sweep reads
the iterate produced by sweep `k-1`.  On `A = [[2,1],[1,2]]`, `b = [3,5]`,
`nmax = 2` the code returns `(1, 2)` — every sweep reads the untouched
all-ones `x_old` — while the claimed recurrence applied to the first sweep's
iterate would give `x_0 = 1/2` at the second sweep. -/
theorem C3_jacobi_reads_initial_vector :
    (jacobi 2 Atwo bThreeFive 2 0).x 0 = 1 ∧
    (jacobi 2 Atwo bThreeFive 2 0).x 1 = 2 ∧
    jacobiSweep 2 Atwo bThreeFive (jacobiSweep 2 Atwo bThreeFive ones zeroVec) zeroVec 0
      = 1 / 2 := by
  have hx := jacobi_x 2 Atwo bThreeFive 2 0 (by omega)
  refine ⟨?_, ?_, ?_⟩
  · rw [hx]
    norm_num [jacobiSweep, dotIco, Finset.sum_Ico_eq_sum_range, Finset.sum_range_succ,
      Finset.sum_range_zero, Atwo, bThreeFive, ones]
  · rw [hx]
    norm_num [jacobiSweep, dotIco, Finset.sum_Ico_eq_sum_range, Finset.sum_range_succ,
      Finset.sum_range_zero, Atwo, bThreeFive, ones]
  · norm_num [jacobiSweep, dotIco, Finset.sum_Ico_eq_sum_range, Finset.sum_range_succ,
      Finset.sum_range_zero, Atwo, bThreeFive, ones]

/-- **C4**. gauss_seidel: each entry is computed from the already-updated
entries below `i` and the previous iterate above `i` (first conjunct, read
off the finished sweep), and the run stops at the iteration cap or at the
first sweep whose residual meets the tolerance, whichever comes first
(remaining conjuncts: the count never exceeds `nmax`; on return either the
cap was hit or the returned iterate meets the tolerance; and the tolerance
test failed at every earlier completed sweep). -/
theorem C4_gauss_seidel_contract (N : Nat) (A : Mat) (b : Vec) (nmax : Nat) (eps : ℚ) :
    (∀ x xold i, i < N → gsSweep N A b x xold i =
        1 / A i i *
          (b i - dotIco (A i) (gsSweep N A b x xold) 0 i - dotIco (A i) xold (i + 1) N)) ∧
    (gauss_seidel N A b nmax eps).it ≤ nmax ∧
    ((gauss_seidel N A b nmax eps).it = nmax ∨
      sqNormLe (resNormSq N A b (gauss_seidel N A b nmax eps).x) eps) ∧
    (∀ k, 1 ≤ k → k < (gauss_seidel N A b nmax eps).it →
      ¬ sqNormLe (resNormSq N A b (gsIter N A b k).1) eps) := by
  obtain ⟨m, hmn, hx, hit, hstop, hall⟩ := gauss_seidel_run N A b nmax eps
  refine ⟨fun x xold i hi => gsSweep_apply N A b x xold i hi, ?_, ?_, ?_⟩
  · rw [hit]; exact hmn
  · rcases hstop with h | ⟨-, h2⟩
    · left; rw [hit, h]
    · right; rw [hx]; exact h2
  · intro k h1 h2
    rw [hit] at h2
    exact hall k h1 h2

/-- **C5**. In `gradient`, `x` is a local variable (it is assigned by
`x += z*alpha` further down the body), and it is read in the initial
residual computation `r = b - dot(A,x)` before any assignment: every call
raises the unbound-variable error before performing any iteration and never
returns a result. -/
theorem C5_gradient_unbound_local (N : Nat) (A : Mat) (b : Vec) (P : Mat)
    (lsolve : Mat → Vec → Vec) (nmax : Nat) (eps : ℚ) :
    gradient N A b P lsolve nmax eps = Except.error PyError.unboundLocal :=
  rfl

/-- **C6** (code_bug evidence). The spec asks that the preconditioned
gradient call with `P = A` (cell 12 runs `gradient(A,f,A)`) converge in
exactly one iteration; the code instead raises the unbound-variable error at
the initial residual computation, before the first preconditioner solve,
whatever function is plugged in for the external `linalg.solve`. -/
theorem C6_gradient_precond_A_raises :
    ∀ lsolve : Mat → Vec → Vec,
      gradient 33 A33 f33 A33 lsolve 8000 (1 / 10 ^ 10)
        = Except.error PyError.unboundLocal :=
  fun _ => rfl

/-- **C7** (code_bug evidence). On the assembled system with the default cap
and tolerance, jacobi performs all `10000` iterations and the iterate it
returns has squared residual norm about `5·10⁵`, far above the tolerance:
jacobi never reaches the residual-norm tolerance at any iteration count, so
gauss_seidel cannot reach it "in strictly fewer iterations than jacobi
does". -/
theorem C7_jacobi_never_meets_tolerance :
    (jacobi 33 A33 f33 10000 (1 / 10 ^ 10)).it = 10000 ∧
    ¬ sqNormLe (resNormSq 33 A33 f33 ((jacobi 33 A33 f33 10000 (1 / 10 ^ 10)).x))
      (1 / 10 ^ 10) := by
  refine ⟨jacobi_it 33 A33 f33 10000 (1 / 10 ^ 10), ?_⟩
  rw [jacobi_x 33 A33 f33 10000 (1 / 10 ^ 10) (by omega)]
  rintro ⟨-, hle⟩
  have h1 := v2sq_le_S
  norm_num at h1 hle
  linarith

/-- **C8**. The matrix builder produces a symmetric matrix, tridiagonal in
the interior with `2/h²` on the diagonal and `-1/h²` on the two
off-diagonals (and `0` beyond them), whose rows and columns `0` and `n-1`
are identity rows/columns, and a right-hand side vanishing at both
boundary indices.  (Squareness and finiteness are inherent to the
embedding: the arrays are `n × n` resp. length `n` by construction and
every entry is a rational number.) -/
theorem C8_matrix_builder (n : Nat) (hn : 2 ≤ n) :
    (∀ i j, Amat n i j = Amat n j i) ∧
    (∀ i, 0 < i → i < n - 1 → Amat n i i = 2 / hOf n ^ 2) ∧
    (∀ i, 0 < i → i + 1 < n - 1 →
      Amat n i (i + 1) = -1 / hOf n ^ 2 ∧ Amat n (i + 1) i = -1 / hOf n ^ 2) ∧
    (∀ i j, 0 < i → i < n - 1 → 0 < j → j < n - 1 → (i + 2 ≤ j ∨ j + 2 ≤ i) →
      Amat n i j = 0) ∧
    (∀ j, Amat n 0 j = if j = 0 then 1 else 0) ∧
    (∀ i, Amat n i 0 = if i = 0 then 1 else 0) ∧
    (∀ j, Amat n (n - 1) j = if j = n - 1 then 1 else 0) ∧
    (∀ i, Amat n i (n - 1) = if i = n - 1 then 1 else 0) ∧
    fVec n 0 = 0 ∧ fVec n (n - 1) = 0 := by
  refine ⟨?_, ?_, ?_, ?_, Amat_row0 n, Amat_col0 n, Amat_rowLast n, Amat_colLast n, ?_, ?_⟩
  · intro i j
    by_cases hi0 : i = 0
    · subst hi0; rw [Amat_row0, Amat_col0]
    · by_cases hj0 : j = 0
      · subst hj0; rw [Amat_row0, Amat_col0]
      · by_cases hi1 : i = n - 1
        · subst hi1; rw [Amat_rowLast, Amat_colLast]
        · by_cases hj1 : j = n - 1
          · subst hj1; rw [Amat_rowLast, Amat_colLast]
          · rw [Amat_interior n i j hi0 hj0 hi1 hj1, Amat_interior n j i hj0 hi0 hj1 hi1]
            by_cases hij : i = j
            · subst hij; rfl
            · simp only [Ascaled, tridiag]
              rw [if_neg hij, if_neg (Ne.symm hij)]
              ring
  · intro i h0 h1
    rw [Amat_interior n i i (by omega) (by omega) (by omega) (by omega)]
    simp only [Ascaled, tridiag]
    split_ifs <;> first | omega | ring
  · intro i h0 h1
    constructor
    · rw [Amat_interior n i (i + 1) (by omega) (by omega) (by omega) (by omega)]
      simp only [Ascaled, tridiag]
      split_ifs <;> first | omega | ring
    · rw [Amat_interior n (i + 1) i (by omega) (by omega) (by omega) (by omega)]
      simp only [Ascaled, tridiag]
      split_ifs <;> first | omega | ring
  · intro i j h0 h1 h2 h3 hfar
    rw [Amat_interior n i j (by omega) (by omega) (by omega) (by omega)]
    simp only [Ascaled, tridiag]
    split_ifs <;> first | omega | ring
  · show (if (0 : Nat) = n - 1 then (0 : ℚ) else if (0 : Nat) = 0 then 0
      else linspace01 n 0 * (1 - linspace01 n 0)) = 0
    rw [if_neg (by omega), if_pos rfl]
  · show (if n - 1 = n - 1 then (0 : ℚ) else _) = 0
    rw [if_pos rfl]

/-- **C8 witness**: the theorem instantiated on the notebook's `n = 33`. -/
theorem C8_matrix_builder_witness :
    2 ≤ 33 ∧ Amat 33 5 5 = 2 / hOf 33 ^ 2 ∧ Amat 33 5 6 = -1 / hOf 33 ^ 2 ∧
    Amat 33 0 5 = 0 ∧ fVec 33 0 = 0 := by
  obtain ⟨-, hdiag, hoff, -, hrow0, -, -, -, hf0, -⟩ := C8_matrix_builder 33 (by norm_num)
  refine ⟨by norm_num, hdiag 5 (by norm_num) (by norm_num),
    (hoff 5 (by norm_num) (by norm_num)).1, ?_, hf0⟩
  rw [hrow0 5]
  norm_num

/-- **C9**. On the assembled boundary-modified system every completed jacobi
or gauss_seidel sweep writes the prescribed Dirichlet value `0` at indices
`0` and `32`, and so does the vector either solver returns, for every cap
and tolerance; the gradient solver raises before producing any iterate, so
it returns no vector at all. -/
theorem C9_dirichlet_rows :
    (∀ xold x, jacobiSweep 33 A33 f33 xold x 0 = 0 ∧ jacobiSweep 33 A33 f33 xold x 32 = 0) ∧
    (∀ nmax eps, (jacobi 33 A33 f33 nmax eps).x 0 = 0 ∧ (jacobi 33 A33 f33 nmax eps).x 32 = 0) ∧
    (∀ x xold, gsSweep 33 A33 f33 x xold 0 = 0 ∧ gsSweep 33 A33 f33 x xold 32 = 0) ∧
    (∀ nmax eps, (gauss_seidel 33 A33 f33 nmax eps).x 0 = 0 ∧
      (gauss_seidel 33 A33 f33 nmax eps).x 32 = 0) ∧
    (∀ lsolve nmax eps,
      gradient 33 A33 f33 identityMat lsolve nmax eps = Except.error PyError.unboundLocal) := by
  have hb0 := f33_boundary.1
  have hb32 := f33_boundary.2
  refine ⟨?_, ?_, ?_, ?_, fun _ _ _ => rfl⟩
  · intro xold x
    exact ⟨jacobiSweep_row_zero 33 A33 f33 0 hb0 A33_row0_offdiag (by omega) xold x,
      jacobiSweep_row_zero 33 A33 f33 32 hb32 A33_rowLast_offdiag (by omega) xold x⟩
  · intro nmax eps
    constructor
    · show (jacobiLoop 33 A33 f33 nmax eps nmax ⟨zeroVec, ones, 0⟩).x 0 = 0
      exact jacobiLoop_row_zero 33 A33 f33 nmax eps 0 hb0 A33_row0_offdiag (by omega)
        nmax ⟨zeroVec, ones, 0⟩ rfl
    · show (jacobiLoop 33 A33 f33 nmax eps nmax ⟨zeroVec, ones, 0⟩).x 32 = 0
      exact jacobiLoop_row_zero 33 A33 f33 nmax eps 32 hb32 A33_rowLast_offdiag (by omega)
        nmax ⟨zeroVec, ones, 0⟩ rfl
  · intro x xold
    exact ⟨gsSweep_row_zero 33 A33 f33 0 hb0 A33_row0_offdiag (by omega) x xold,
      gsSweep_row_zero 33 A33 f33 32 hb32 A33_rowLast_offdiag (by omega) x xold⟩
  · intro nmax eps
    constructor
    · show (gsLoop 33 A33 f33 nmax eps nmax ⟨zeroVec, ones, none, 0⟩).x 0 = 0
      exact gsLoop_row_zero 33 A33 f33 nmax eps 0 hb0 A33_row0_offdiag (by omega)
        nmax ⟨zeroVec, ones, none, 0⟩ rfl
    · show (gsLoop 33 A33 f33 nmax eps nmax ⟨zeroVec, ones, none, 0⟩).x 32 = 0
      exact gsLoop_row_zero 33 A33 f33 nmax eps 32 hb32 A33_rowLast_offdiag (by omega)
        nmax ⟨zeroVec, ones, none, 0⟩ rfl

/-- **C10**. Because the residual computation, tolerance update and the copy
of `x` into `x_old` all sit outside jacobi's while-loop body: for every
system with nonzero diagonal, every `eps ≥ 0` and every `nmax ≥ 1`, the loop
performs exactly `nmax` sweeps, the loop never changes `x_old` (which starts
as the all-ones vector), and the returned vector is a single jacobi sweep
applied to the all-ones vector — independent of `nmax`. -/
theorem C10_jacobi_fixed_sweeps (N : Nat) (A : Mat) (b : Vec) (nmax : Nat) (eps : ℚ)
    (hd : ∀ i, i < N → A i i ≠ 0) (he : 0 ≤ eps) (hn : 1 ≤ nmax) :
    (jacobi N A b nmax eps).it = nmax ∧
    (∀ fuel s, (jacobiLoop N A b nmax eps fuel s).xold = s.xold) ∧
    (jacobi N A b nmax eps).x = jacobiSweep N A b ones zeroVec :=
  ⟨jacobi_it N A b nmax eps, jacobiLoop_xold N A b nmax eps, jacobi_x N A b nmax eps hn⟩

/-- **C10 witness**: the theorem instantiated on `A = [[2]]`, `b = [4]`,
`nmax = 2`, `eps = 0`. -/
theorem C10_jacobi_fixed_sweeps_witness :
    (jacobi 1 Aone bFour 2 0).it = 2 ∧
    (∀ fuel s, (jacobiLoop 1 Aone bFour 2 0 fuel s).xold = s.xold) ∧
    (jacobi 1 Aone bFour 2 0).x = jacobiSweep 1 Aone bFour ones zeroVec :=
  C10_jacobi_fixed_sweeps 1 Aone bFour 2 0
    (fun i _ => by norm_num [Aone]) (by norm_num) (by norm_num)

end IterNB
